import Mathlib

/-!
Shallow embedding of `backend/dialogue_manager.py` (class `DialogueManager`):
the in-memory session store (`get_session`, `clear_session`), the merge
engine (`_merge_nlu_to_session`) and the turn planner
(`determine_next_step`).

Modelling conventions:
* Python strings are `List Char`; `str.lower` is `pyLower` (ASCII case
  folding, which agrees with Python on the Latin and Devanagari text the
  module uses); the `in` substring operator is `containsSub`.
* A Python dict field that may be missing is `Option (Option α)`:
  `none` = key absent, `some none` = key present holding `None`,
  `some (some v)` = key present holding `v`.  `d.get(k)` is `Option.join`;
  `d[k]` on an absent key is a `KeyError`, modelled in `Except`.
* Python truthiness: a string is truthy iff non-`None` and non-empty
  (`truthyStr`); a number is truthy iff non-`None` and non-zero
  (`truthyNat`).  Quantities and prices are modelled as `Nat`.
* `time.time()` is an explicit `Int` parameter `now` (seconds); the two
  reads of the clock inside one turn are identified.
* The mutable `self.sessions` dict is an association list threaded through
  the functions; each planner exit writes the (mutated) session back,
  exactly mirroring the aliasing of the Python dict.
-/

abbrev Str := List Char

/-- Python `str.lower` restricted to ASCII case folding (identity on the
Devanagari code points appearing in the source). -/
def pyLower (s : Str) : Str := s.map Char.toLower

/-- Python `needle in hay` on strings: substring containment. -/
def containsSub (needle : Str) : Str → Bool
  | [] => needle.isEmpty
  | c :: cs => List.isPrefixOf needle (c :: cs) || containsSub needle cs

/-- Truthiness of an optional string (Python: `None` and `""` are falsy). -/
def truthyStr : Option Str → Bool
  | none => false
  | some s => !s.isEmpty

/-- Truthiness of an optional number (Python: `None` and `0` are falsy). -/
def truthyNat : Option Nat → Bool
  | none => false
  | some n => n != 0

/-- An item dict as appended to `session["items"]` or arriving inside
`nlu_data["items"]`.  Each field is key-present (`some`) times value
(`Option`); see the module conventions. -/
structure Item where
  itemName : Option (Option Str)
  qty : Option (Option Nat)
  price : Option (Option Nat)
  salePrice : Option (Option Nat)
deriving DecidableEq

/-- The `session["payment"]` dict (both keys always present). -/
structure Payment where
  amount : Option Nat
  mode : Option Str
deriving DecidableEq

/-- A session dict as created by `get_session` (every key present). -/
structure Session where
  active : Bool
  intent : Option Str
  customerName : Option Str
  items : List Item
  payment : Payment
  last_question : Option Str
  turn_count : Nat
  last_active : Int
deriving DecidableEq

/-- An extractor result (`nlu_data`).  `items` collapses the three falsy
shapes the code treats identically (`.get("items", [])` absent, `None`,
`[]`) into `[]`.  `payment` is carried for completeness: the merge code
never reads it. -/
structure Nlu where
  intent : Option Str
  customerName : Option Str
  items : List Item
  payment : Option Payment
deriving DecidableEq

/-- A return value of `determine_next_step` (the `payload` key is present
only on the confirmation exit). -/
structure Result where
  text : Str
  action : Str
  payload : Option Session
deriving DecidableEq

/-- A raised Python exception, as far as this module can raise one. -/
inductive PyErr where
  | keyError : Str → PyErr
deriving DecidableEq

deriving instance DecidableEq for Except

/-! ## Merge engine: `_merge_nlu_to_session`, item half -/

/-- The completion-fragment body: `last["qty"] = it["qty"]` guarded by
`it.get("qty") and not last.get("qty")`, then the same for `price`
(source lines 139-140). -/
def completeLast (last frag : Item) : Item :=
  let l1 := if truthyNat frag.qty.join && !truthyNat last.qty.join then
              { last with qty := some frag.qty.join } else last
  if truthyNat frag.price.join && !truthyNat l1.price.join then
    { l1 with price := some frag.price.join } else l1

/-- In-place update of the last element of `session["items"]`. -/
def updLast (frag : Item) : List Item → List Item
  | [] => []
  | [a] => [completeLast a frag]
  | a :: b :: rest => a :: updLast frag (b :: rest)

/-- The `for it in new_items` loop of `_merge_nlu_to_session`: a nameless
fragment updates the last item when one exists, anything else is appended
(source lines 127-143). -/
def mergeItems (items : List Item) : List Item → List Item
  | [] => items
  | it :: rest =>
      let items1 :=
        if !truthyStr it.itemName.join && !items.isEmpty then updLast it items
        else items ++ [it]
      mergeItems items1 rest

/-- Embedding of `_merge_nlu_to_session(session, nlu_data)` (source lines 120-143):
truthy `intent` and `customerName` overwrite unconditionally, then the
item loop runs.  The function never touches `payment`, `active` or
`last_active`. -/
def merge_nlu_to_session (s : Session) (nlu : Nlu) : Session :=
  let s1 := if truthyStr nlu.intent then { s with intent := nlu.intent } else s
  let s2 := if truthyStr nlu.customerName then
              { s1 with customerName := nlu.customerName } else s1
  { s2 with items := mergeItems s2.items nlu.items }

/-! ## Session store -/

abbrev UserId := Nat

/-- The `self.sessions` dict as an association list. -/
abbrev Store := List (UserId × Session)

def storeLookup : Store → UserId → Option Session
  | [], _ => none
  | (k, v) :: rest, u => if k = u then some v else storeLookup rest u

/-- Dict assignment `self.sessions[u] = s`: replace the binding or add it. -/
def storePut : Store → UserId → Session → Store
  | [], u, s => [(u, s)]
  | (k, v) :: rest, u, s =>
      if k = u then (u, s) :: rest else (k, v) :: storePut rest u s

/-- Embedding of `clear_session`: `self.sessions.pop(u)` when present (a dict holds the
key at most once, so removing every binding is the same operation). -/
def clear_session (store : Store) (u : UserId) : Store :=
  store.filter (fun kv => !(kv.1 == u))

def SESSION_TIMEOUT : Int := 60

/-- The fresh session literal of `get_session` (source lines 25-34). -/
def freshSession (now : Int) : Session :=
  { active := false, intent := none, customerName := none, items := [],
    payment := { amount := none, mode := none }, last_question := none,
    turn_count := 0, last_active := now }

/-- Embedding of `get_session(user_uid)` (source lines 15-35): return the stored session
when live, otherwise (expired or absent) store and return a fresh one.
Returns the session together with the store after the call. -/
def get_session (store : Store) (now : Int) (u : UserId) : Session × Store :=
  match storeLookup store u with
  | some s =>
      if now - s.last_active > SESSION_TIMEOUT then
        (freshSession now, storePut store u (freshSession now))
      else (s, store)
  | none => (freshSession now, storePut store u (freshSession now))

/-! ## Turn planner: `determine_next_step` -/

/-- The single-quote character, written by code point to keep source text
plain. -/
def squote : Char := Char.ofNat 39

def actListen : Str := "listen".toList
def actConfirm : Str := "confirm".toList
def actCancel : Str := "cancel".toList

def cancelText : Str := "Okay boss, cancelled. (ठीक आहे, रद्द केले.)".toList
def intentPrompt : Str :=
  "तुम्हाला काय करायचं आहे? बिल, पेमेंट की रिटर्न? (Bill, Payment or Return?)".toList
def customerPrompt : Str := "ग्राहकाचं नाव सांगा? (Customer Name?)".toList
def whichItemPrompt : Str := "कोणता आयटम ॲड करायचा? (Which item?)".toList
def itemNameAgainPrompt : Str := "Please say the item name again.".toList
def createBillStr : Str := "create_bill".toList

/-- Rendering a number-or-`None` inside a Python f-string. -/
def renderOptNat : Option Nat → Str
  | none => "None".toList
  | some n => Nat.toDigits 10 n

/-- Rendering a string-or-`None` inside a Python f-string. -/
def renderOptStr : Option Str → Str
  | none => "None".toList
  | some s => s

/-- f-string of source line 95. -/
def qtyPrompt (nm : Str) : Str :=
  [squote] ++ nm ++ [squote] ++ " चे किती नग? (Quantity?)".toList

/-- f-string of source line 99. -/
def pricePrompt (nm : Str) : Str :=
  [squote] ++ nm ++ [squote] ++ " ची किंमत काय? (Price?)".toList

/-- f-string of source line 107. -/
def addedPrompt (q : Option Nat) (nm : Option Str) : Str :=
  "Added ".toList ++ renderOptNat q ++ [' '] ++ renderOptStr nm
    ++ ". आणखी काही? (Anything else?)".toList

/-- The global-interrupt condition of source line 59. -/
def hasCancelKw (text : Str) : Bool :=
  containsSub "cancel".toList (pyLower text)
    || containsSub "stop".toList (pyLower text)
    || containsSub "बंद".toList text

/-- The finish-keyword condition of source line 102. -/
def hasDoneKw (text : Str) : Bool :=
  containsSub "confirm".toList (pyLower text)
    || containsSub "save".toList (pyLower text)
    || containsSub "बस".toList (pyLower text)
    || containsSub "done".toList (pyLower text)

/-- One entry of the confirmation list comprehension
`f"{i['qty']} {i['itemName']}"`: bracket access raises `KeyError` on an
absent key, a present `None` renders as the text `None`. -/
def itemSummary (i : Item) : Except PyErr Str :=
  match i.qty with
  | none => .error (.keyError "qty".toList)
  | some q =>
      match i.itemName with
      | none => .error (.keyError "itemName".toList)
      | some nm => .ok (renderOptNat q ++ [' '] ++ renderOptStr nm)

/-- The comprehension over `session["items"]`, first raise wins. -/
def itemSummaries : List Item → Except PyErr (List Str)
  | [] => .ok []
  | i :: rest =>
      match itemSummary i with
      | .error e => .error e
      | .ok s =>
          match itemSummaries rest with
          | .error e => .error e
          | .ok ss => .ok (s :: ss)

/-- Python `", ".join`. -/
def joinComma : List Str → Str
  | [] => []
  | [s] => s
  | s :: t :: rest => s ++ ", ".toList ++ joinComma (t :: rest)

/-- Confirmation phase (source lines 109-118): build the summary — the
only raise point of the planner — and return the `confirm` result with the
session as payload. -/
def confirmPhase (store : Store) (u : UserId) (s : Session) :
    Except PyErr (Result × Store) :=
  match itemSummaries s.items with
  | .error e => .error e
  | .ok parts =>
      let summary := "Validating: ".toList ++ renderOptStr s.intent
        ++ " for ".toList ++ renderOptStr s.customerName ++ ". ".toList
      .ok ({ text := "Complete. ".toList ++ summary ++ " Items: ".toList
               ++ joinComma parts ++ ". Shall I save it?".toList,
             action := actConfirm, payload := some s },
           storePut store u s)

/-- Item phase (source lines 81-107) followed by confirmation: the loop
body runs only under `session["intent"] == "create_bill"`, every other
intent falls straight through to the confirmation phase. -/
def itemPhase (store : Store) (u : UserId) (text : Str) (s : Session) :
    Except PyErr (Result × Store) :=
  if s.intent = some createBillStr then
    match s.items.getLast? with
    | none =>
        .ok ({ text := whichItemPrompt, action := actListen, payload := none },
             storePut store u s)
    | some last =>
        if !truthyStr last.itemName.join then
          let s1 := { s with items := s.items.dropLast }
          .ok ({ text := itemNameAgainPrompt, action := actListen,
                 payload := none }, storePut store u s1)
        else if !truthyNat last.qty.join then
          .ok ({ text := qtyPrompt (renderOptStr last.itemName.join),
                 action := actListen, payload := none }, storePut store u s)
        else if !truthyNat last.price.join && !truthyNat last.salePrice.join then
          .ok ({ text := pricePrompt (renderOptStr last.itemName.join),
                 action := actListen, payload := none }, storePut store u s)
        else if hasDoneKw text then
          confirmPhase store u s
        else
          .ok ({ text := addedPrompt last.qty.join last.itemName.join,
                 action := actListen, payload := none }, storePut store u s)
  else confirmPhase store u s

/-- Customer phase (source lines 76-78) followed by the item phase. -/
def customerPhase (store : Store) (u : UserId) (text : Str) (s : Session) :
    Except PyErr (Result × Store) :=
  if !truthyStr s.customerName then
    let s1 := { s with last_question := some "customerName".toList }
    .ok ({ text := customerPrompt, action := actListen, payload := none },
         storePut store u s1)
  else itemPhase store u text s

/-- Embedding of `determine_next_step(user_uid, text, nlu_data)` (source lines 51-118):
fetch the session, refresh `last_active`, honour the global interrupt,
merge the extraction, then walk the intent / customer / item /
confirmation phases.  The store component of the answer is `self.sessions`
after the call. -/
def determine_next_step (store : Store) (now : Int) (u : UserId)
    (text : Str) (nlu : Nlu) : Except PyErr (Result × Store) :=
  let s0 := (get_session store now u).1
  let s1 := { s0 with last_active := now }
  if hasCancelKw text then
    .ok ({ text := cancelText, action := actCancel, payload := none },
         clear_session store u)
  else
    let s2 := merge_nlu_to_session s1 nlu
    if !truthyStr s2.intent then
      if truthyStr nlu.intent then
        customerPhase store u text { s2 with intent := nlu.intent, active := true }
      else
        .ok ({ text := intentPrompt, action := actListen, payload := none },
             storePut store u { s2 with last_question := some "intent".toList })
    else customerPhase store u text s2

/-! ## Concrete inputs for counterexamples and witnesses -/

/-- The all-null extraction. -/
def nullNlu : Nlu := { intent := none, customerName := none, items := [], payment := none }

def sSale : Session := { freshSession 0 with intent := some "SALE".toList }
def ePayment : Nlu := { nullNlu with intent := some "PAYMENT".toList }

def fragQty5 : Item :=
  { itemName := some none, qty := some (some 5), price := none, salePrice := none }
def sEmptyBill : Session :=
  { freshSession 0 with
    intent := some "create_bill".toList, customerName := some "Ramesh".toList }

def nluSALE : Nlu := { nullNlu with intent := some "SALE".toList }
def nluRamesh : Nlu := { nullNlu with customerName := some "Ramesh".toList }

/-- The store after turn 1 of the end-to-end scenario. -/
def c2Store1 : Store := [(1, { sSale with last_question := some "customerName".toList })]

/-- A session whose single item dict lacks the `qty` key. -/
def sBadItem : Session :=
  { freshSession 0 with
    intent := some "PAYMENT".toList, customerName := some "X".toList,
    items := [{ itemName := some (some "Rice".toList), qty := none,
                price := none, salePrice := none }] }

/-- A last item whose qty is the number `0` (set, but falsy). -/
def itemRiceQty0 : Item :=
  { itemName := some (some "Rice".toList), qty := some (some 0),
    price := some none, salePrice := none }
def sRice0 : Session := { sEmptyBill with items := [itemRiceQty0] }

/-- The two keys the confirmation summary reads with bracket access; an
item carrying both can never raise there. -/
def itemHasKeys (i : Item) : Bool := i.itemName.isSome && i.qty.isSome

/-- Text of a planner answer (`[]` when the call raised). -/
def resText : Except PyErr (Result × Store) → Str
  | .ok (r, _) => r.text
  | .error _ => []

/-- Action of a planner answer (`[]` when the call raised). -/
def resAction : Except PyErr (Result × Store) → Str
  | .ok (r, _) => r.action
  | .error _ => []

def ePay : Nlu :=
  { nullNlu with payment := some { amount := some 100, mode := some "CASH".toList } }

def itemRiceNull : Item :=
  { itemName := some (some "Rice".toList), qty := some none, price := some none,
    salePrice := none }
def sRice : Session := { sEmptyBill with items := [itemRiceNull] }

/-- A completion fragment whose qty and price are both the number `0`. -/
def fragZero : Item :=
  { itemName := some none, qty := some (some 0), price := some (some 0),
    salePrice := none }

/-- An extraction carrying exactly one item fragment and nothing else. -/
def fragNlu (frag : Item) : Nlu :=
  { intent := none, customerName := none, items := [frag], payment := none }

/-! ## Helper lemmas -/

/-- Unfolding of the merge into one structure update. -/
theorem merge_eq (s : Session) (nlu : Nlu) :
    merge_nlu_to_session s nlu =
      { s with
        intent := if truthyStr nlu.intent then nlu.intent else s.intent,
        customerName := if truthyStr nlu.customerName then nlu.customerName
                        else s.customerName,
        items := mergeItems s.items nlu.items } := by
  unfold merge_nlu_to_session
  split <;> split <;> rfl

/-- Merging the all-null extraction is the identity on the session. -/
theorem merge_nullNlu_id (s : Session) : merge_nlu_to_session s nullNlu = s := rfl

theorem concat_not_isEmpty (init : List Item) (last : Item) :
    (init ++ [last]).isEmpty = false := by
  cases init <;> rfl

/-- Updating the last element rewrites it and nothing else. -/
theorem updLast_concat (frag : Item) (init : List Item) (last : Item) :
    updLast frag (init ++ [last]) = init ++ [completeLast last frag] := by
  induction init with
  | nil => rfl
  | cons a rest ih =>
      cases h : rest ++ [last] with
      | nil => exact absurd h (by simp)
      | cons b tl =>
          simp only [List.cons_append, updLast, h]
          rw [← h, ih]

/-- A fragment with falsy qty and price leaves the last item unchanged. -/
theorem completeLast_falsy (last frag : Item)
    (hq : truthyNat frag.qty.join = false)
    (hp : truthyNat frag.price.join = false) :
    completeLast last frag = last := by
  unfold completeLast
  rw [hq, hp]
  rfl

theorem storeLookup_clear (store : Store) (u : UserId) :
    storeLookup (clear_session store u) u = none := by
  induction store with
  | nil => rfl
  | cons kv rest ih =>
      by_cases hk : kv.1 = u
      · simpa [clear_session, List.filter_cons, hk] using ih
      · simpa [clear_session, List.filter_cons, hk, storeLookup] using ih

theorem get_session_live (store : Store) (now : Int) (u : UserId) (s : Session)
    (hlook : storeLookup store u = some s)
    (hlive : now - s.last_active ≤ SESSION_TIMEOUT) :
    get_session store now u = (s, store) := by
  unfold get_session
  rw [hlook]
  exact if_neg (by omega)

theorem get_session_expired (store : Store) (now : Int) (u : UserId) (s : Session)
    (hlook : storeLookup store u = some s)
    (hexp : now - s.last_active > SESSION_TIMEOUT) :
    get_session store now u = (freshSession now, storePut store u (freshSession now)) := by
  unfold get_session
  rw [hlook]
  exact if_pos hexp

theorem get_session_absent (store : Store) (now : Int) (u : UserId)
    (hlook : storeLookup store u = none) :
    get_session store now u = (freshSession now, storePut store u (freshSession now)) := by
  unfold get_session
  rw [hlook]

/-- A live non-cancel turn reduces to the phase chain on the merged
session. -/
theorem determine_eq_phases (store : Store) (now : Int) (u : UserId)
    (text : Str) (nlu : Nlu) (s : Session)
    (hlook : storeLookup store u = some s)
    (hlive : now - s.last_active ≤ SESSION_TIMEOUT)
    (hc : hasCancelKw text = false)
    (hint : truthyStr (merge_nlu_to_session { s with last_active := now } nlu).intent = true) :
    determine_next_step store now u text nlu =
      customerPhase store u text (merge_nlu_to_session { s with last_active := now } nlu) := by
  unfold determine_next_step
  rw [get_session_live store now u s hlook hlive, hc]
  simp only [Bool.false_eq_true, if_false]
  rw [hint]
  simp only [Bool.not_true, Bool.false_eq_true, if_false]

/-- Completing the last item only rewrites `qty`/`price` with present keys,
so key presence survives. -/
theorem completeLast_keys (last frag : Item) (h : itemHasKeys last = true) :
    itemHasKeys (completeLast last frag) = true := by
  unfold itemHasKeys at h ⊢
  unfold completeLast
  dsimp only
  split <;> split <;> simp_all

theorem updLast_keys (frag : Item) :
    ∀ (items : List Item), (∀ i ∈ items, itemHasKeys i = true) →
      ∀ i ∈ updLast frag items, itemHasKeys i = true := by
  intro items
  induction items with
  | nil => intro _ i hi; simp [updLast] at hi
  | cons a rest ih =>
      intro h i hi
      cases rest with
      | nil =>
          simp only [updLast, List.mem_singleton] at hi
          subst hi
          exact completeLast_keys a frag (h a (by simp))
      | cons b tl =>
          simp only [updLast, List.mem_cons] at hi
          rcases hi with rfl | hi
          · exact h i (by simp)
          · exact ih (fun j hj => h j (List.mem_cons_of_mem _ hj)) i hi

theorem mergeItems_keys :
    ∀ (frags items : List Item),
      (∀ i ∈ items, itemHasKeys i = true) → (∀ i ∈ frags, itemHasKeys i = true) →
      ∀ i ∈ mergeItems items frags, itemHasKeys i = true := by
  intro frags
  induction frags with
  | nil =>
      intro items h _ i hi
      simp only [mergeItems] at hi
      exact h i hi
  | cons f fs ih =>
      intro items h hf i hi
      simp only [mergeItems] at hi
      by_cases hcond : (!truthyStr f.itemName.join && !items.isEmpty) = true
      · rw [if_pos hcond] at hi
        exact ih _ (updLast_keys f items h) (fun j hj => hf j (List.mem_cons_of_mem _ hj)) i hi
      · rw [if_neg hcond] at hi
        refine ih _ ?_ (fun j hj => hf j (List.mem_cons_of_mem _ hj)) i hi
        intro j hj
        rcases List.mem_append.mp hj with hj | hj
        · exact h j hj
        · have hjf : j = f := by simpa using hj
          rw [hjf]
          exact hf f (List.mem_cons_self f fs)

theorem itemSummary_keys (i : Item) (h : itemHasKeys i = true) :
    ∃ s, itemSummary i = .ok s := by
  have h' : i.itemName.isSome = true ∧ i.qty.isSome = true := by
    simpa [itemHasKeys] using h
  obtain ⟨nm, hnm⟩ := Option.isSome_iff_exists.mp h'.1
  obtain ⟨q, hq⟩ := Option.isSome_iff_exists.mp h'.2
  exact ⟨_, by unfold itemSummary; rw [hq, hnm]⟩

theorem itemSummaries_keys :
    ∀ (items : List Item), (∀ i ∈ items, itemHasKeys i = true) →
      ∃ l, itemSummaries items = .ok l := by
  intro items
  induction items with
  | nil => exact fun _ => ⟨[], rfl⟩
  | cons a rest ih =>
      intro h
      obtain ⟨s, hs⟩ := itemSummary_keys a (h a (by simp))
      obtain ⟨l, hl⟩ := ih (fun j hj => h j (List.mem_cons_of_mem _ hj))
      exact ⟨s :: l, by simp [itemSummaries, hs, hl]⟩

theorem confirmPhase_ok (store : Store) (u : UserId) (s : Session)
    (h : ∀ i ∈ s.items, itemHasKeys i = true) :
    ∃ r, confirmPhase store u s = .ok r := by
  obtain ⟨l, hl⟩ := itemSummaries_keys s.items h
  exact ⟨_, by unfold confirmPhase; rw [hl]⟩

theorem itemPhase_ok (store : Store) (u : UserId) (text : Str) (s : Session)
    (h : ∀ i ∈ s.items, itemHasKeys i = true) :
    ∃ r, itemPhase store u text s = .ok r := by
  unfold itemPhase
  split
  · split
    · exact ⟨_, rfl⟩
    · split
      · exact ⟨_, rfl⟩
      · split
        · exact ⟨_, rfl⟩
        · split
          · exact ⟨_, rfl⟩
          · split
            · exact confirmPhase_ok store u s h
            · exact ⟨_, rfl⟩
  · exact confirmPhase_ok store u s h

theorem customerPhase_ok (store : Store) (u : UserId) (text : Str) (s : Session)
    (h : ∀ i ∈ s.items, itemHasKeys i = true) :
    ∃ r, customerPhase store u text s = .ok r := by
  unfold customerPhase
  split
  · exact ⟨_, rfl⟩
  · exact itemPhase_ok store u text s h

/-- With a truthy customer name the customer phase is transparent. -/
theorem customerPhase_known (store : Store) (u : UserId) (text : Str) (s : Session)
    (hcust : truthyStr s.customerName = true) :
    customerPhase store u text s = itemPhase store u text s := by
  unfold customerPhase
  rw [hcust]
  rfl

/-- In the bill flow, a last item with a truthy name and a falsy qty gets
the quantity prompt. -/
theorem itemPhase_qty_prompt (store : Store) (u : UserId) (text : Str)
    (s : Session) (init : List Item) (last : Item)
    (hintent : s.intent = some createBillStr)
    (hitems : s.items = init ++ [last])
    (hname : truthyStr last.itemName.join = true)
    (hqty : truthyNat last.qty.join = false) :
    itemPhase store u text s =
      .ok ({ text := qtyPrompt (renderOptStr last.itemName.join),
             action := actListen, payload := none }, storePut store u s) := by
  unfold itemPhase
  rw [if_pos hintent, hitems, List.getLast?_concat]
  dsimp only
  rw [hname, hqty]
  rfl

/-- In the bill flow, a last item with a truthy name and qty but falsy
price and salePrice gets the price prompt. -/
theorem itemPhase_price_prompt (store : Store) (u : UserId) (text : Str)
    (s : Session) (init : List Item) (last : Item)
    (hintent : s.intent = some createBillStr)
    (hitems : s.items = init ++ [last])
    (hname : truthyStr last.itemName.join = true)
    (hqty : truthyNat last.qty.join = true)
    (hprice : truthyNat last.price.join = false)
    (hsale : truthyNat last.salePrice.join = false) :
    itemPhase store u text s =
      .ok ({ text := pricePrompt (renderOptStr last.itemName.join),
             action := actListen, payload := none }, storePut store u s) := by
  unfold itemPhase
  rw [if_pos hintent, hitems, List.getLast?_concat]
  dsimp only
  rw [hname, hqty, hprice, hsale]
  rfl

/-- In the bill flow, a nameless last item is dropped with a re-prompt. -/
theorem itemPhase_name_pop (store : Store) (u : UserId) (text : Str)
    (s : Session) (init : List Item) (last : Item)
    (hintent : s.intent = some createBillStr)
    (hitems : s.items = init ++ [last])
    (hname : truthyStr last.itemName.join = false) :
    itemPhase store u text s =
      .ok ({ text := itemNameAgainPrompt, action := actListen, payload := none },
           storePut store u { s with items := init }) := by
  unfold itemPhase
  rw [if_pos hintent, hitems, List.getLast?_concat]
  dsimp only
  rw [hname, List.dropLast_concat]
  rfl

/-! ## Claim theorems -/

/-- C1 counterexample: intent is not write-once in the merge.  A session
already holding `intent = SALE` merged with an extraction carrying
`intent = PAYMENT` does not keep `SALE` — `_merge_nlu_to_session`
overwrites it. -/
theorem merge_intent_overwrite_cex :
    (merge_nlu_to_session sSale ePayment).intent ≠ some "SALE".toList := by decide

/-- C1 (amended): `_merge_nlu_to_session` overwrites `session.intent`
with any truthy extraction intent, regardless of the session's current
intent; only a falsy extraction intent leaves it unchanged. -/
theorem merge_intent_latest_wins (s : Session) (nlu : Nlu) :
    (truthyStr nlu.intent = true →
      (merge_nlu_to_session s nlu).intent = nlu.intent)
    ∧ (truthyStr nlu.intent = false →
      (merge_nlu_to_session s nlu).intent = s.intent) := by
  rw [merge_eq]
  constructor <;> intro h <;> simp [h]

/-- C1 witness: the amended rule at the SALE/PAYMENT input and at the
all-null input. -/
theorem merge_intent_latest_wins_witness :
    (merge_nlu_to_session sSale ePayment).intent = ePayment.intent
    ∧ (merge_nlu_to_session sSale nullNlu).intent = sSale.intent :=
  ⟨(merge_intent_latest_wins sSale ePayment).1 (by decide),
   (merge_intent_latest_wins sSale nullNlu).2 (by decide)⟩

/-- C2 (code bug): in the end-to-end SALE scenario, turn 1 prompts for the
customer name as claimed, but turn 2 does not return the "which item?"
prompt: the item phase runs only under
`session["intent"] == "create_bill"`, a value the repository's extractor
(`nlu_engine.py`, SUPPORTED INTENTS) never produces, so with intent
`SALE` the planner falls straight through to an immediate confirmation
summary with action `confirm`. -/
theorem sale_scenario_skips_item_phase :
    determine_next_step [] 0 1 "sale".toList nluSALE =
      .ok ({ text := customerPrompt, action := actListen, payload := none },
           c2Store1)
    ∧ resAction (determine_next_step c2Store1 0 1 "Ramesh".toList nluRamesh)
        = actConfirm
    ∧ resText (determine_next_step c2Store1 0 1 "Ramesh".toList nluRamesh)
        ≠ whichItemPrompt := by
  refine ⟨by decide, by decide, by decide⟩

/-- C3 counterexample: merging a nameless completion fragment into a
session with empty items does append a phantom item. -/
theorem dangling_fragment_appended_cex :
    (merge_nlu_to_session sEmptyBill (fragNlu fragQty5)).items ≠ [] := by decide

/-- C3 (amended): the merge appends the nameless fragment as a phantom
item; on the same `determine_next_step` call the planner then detects the
missing name, pops the phantom, and answers "Please say the item name
again." (action `listen`) — not the "which item?" prompt — without
raising, leaving `items` empty. -/
theorem dangling_fragment_selfheal (store : Store) (now : Int) (u : UserId)
    (text : Str) (s : Session) (frag : Item)
    (hlook : storeLookup store u = some s)
    (hlive : now - s.last_active ≤ SESSION_TIMEOUT)
    (hc : hasCancelKw text = false)
    (hintent : s.intent = some createBillStr)
    (hcust : truthyStr s.customerName = true)
    (hitems : s.items = [])
    (hname : truthyStr frag.itemName.join = false) :
    (merge_nlu_to_session { s with last_active := now } (fragNlu frag)).items
      = [frag]
    ∧ determine_next_step store now u text (fragNlu frag) =
        .ok ({ text := itemNameAgainPrompt, action := actListen, payload := none },
             storePut store u { s with last_active := now, items := [] }) := by
  have hm : merge_nlu_to_session { s with last_active := now } (fragNlu frag)
      = { s with last_active := now, items := [frag] } := by
    simp [merge_eq, fragNlu, truthyStr, mergeItems, hitems]
  have hint2 : truthyStr
      (merge_nlu_to_session { s with last_active := now } (fragNlu frag)).intent
      = true := by
    rw [hm]
    show truthyStr s.intent = true
    rw [hintent]
    rfl
  refine ⟨by rw [hm], ?_⟩
  rw [determine_eq_phases store now u text (fragNlu frag) s hlook hlive hc hint2,
    hm,
    customerPhase_known store u text
      { s with last_active := now, items := [frag] } hcust,
    itemPhase_name_pop store u text
      { s with last_active := now, items := [frag] } [] frag hintent rfl hname]

/-- C3 witness: the amended behaviour at a concrete empty-items bill
session and a qty-only fragment. -/
theorem dangling_fragment_selfheal_witness :
    (merge_nlu_to_session { sEmptyBill with last_active := 0 }
        (fragNlu fragQty5)).items = [fragQty5]
    ∧ determine_next_step [(1, sEmptyBill)] 0 1 "5 kg".toList (fragNlu fragQty5) =
        .ok ({ text := itemNameAgainPrompt, action := actListen, payload := none },
             [(1, { sEmptyBill with last_active := 0, items := [] })]) :=
  dangling_fragment_selfheal [(1, sEmptyBill)] 0 1 "5 kg".toList sEmptyBill
    fragQty5 rfl (by decide) (by decide) rfl (by decide) rfl (by decide)

/-- C4 counterexample: the claimed field-by-field payment merge does not
happen — a null session amount merged with an extraction carrying
`payment.amount = 100` stays null. -/
theorem merge_payment_ignored_cex :
    (merge_nlu_to_session (freshSession 0) ePay).payment.amount ≠ some 100 := by
  decide

/-- C4 (amended): `_merge_nlu_to_session` ignores `extraction.payment`
entirely; `session.payment` is unchanged by every merge. -/
theorem merge_payment_untouched (s : Session) (nlu : Nlu) :
    (merge_nlu_to_session s nlu).payment = s.payment := by
  rw [merge_eq]

/-- C5 counterexample: a field already set on the last item can be
overwritten by a fragment — qty `0` counts as missing under truthiness,
so the session's last item `{Rice, qty: 0, price: None}` merged with the
fragment `{itemName: None, qty: 5}` ends with qty `5`, not its set `0`. -/
theorem fragment_overwrites_zero_qty_cex :
    (merge_nlu_to_session sRice0 (fragNlu fragQty5)).items
      = [{ itemRiceQty0 with qty := some (some 5) }]
    ∧ itemRiceQty0.qty = some (some 0) := by
  refine ⟨by decide, rfl⟩

/-- C5 (amended): with at least one session item, a nameless fragment
updates only the last item; qty is copied exactly when the fragment's qty
is truthy (non-null, non-zero) and the last item's qty is falsy (null or
zero) — so a zero qty may be overwritten — and likewise for price; truthy
fields of the last item are never overwritten.  The spec's Rice example
is an instance. -/
theorem completion_fragment_targeting (s : Session) (frag : Item)
    (init : List Item) (last : Item)
    (hitems : s.items = init ++ [last])
    (hname : truthyStr frag.itemName.join = false) :
    (merge_nlu_to_session s (fragNlu frag)).items
      = init ++ [completeLast last frag]
    ∧ (completeLast last frag).itemName = last.itemName
    ∧ (truthyNat last.qty.join = true →
        (completeLast last frag).qty = last.qty)
    ∧ (truthyNat last.price.join = true →
        (completeLast last frag).price = last.price)
    ∧ (truthyNat frag.qty.join = true → truthyNat last.qty.join = false →
        (completeLast last frag).qty = some frag.qty.join)
    ∧ (truthyNat frag.price.join = true → truthyNat last.price.join = false →
        (completeLast last frag).price = some frag.price.join) := by
  refine ⟨?_, ?_, ?_, ?_, ?_, ?_⟩
  · rw [merge_eq]
    show mergeItems s.items [frag] = init ++ [completeLast last frag]
    rw [hitems]
    unfold mergeItems
    dsimp only
    rw [hname, concat_not_isEmpty]
    show updLast frag (init ++ [last]) = init ++ [completeLast last frag]
    exact updLast_concat frag init last
  · unfold completeLast
    dsimp only
    split <;> split <;> rfl
  · intro h
    unfold completeLast
    dsimp only
    split <;> split <;> simp_all
  · intro h
    unfold completeLast
    dsimp only
    split <;> split <;> simp_all
  · intro hf hl
    unfold completeLast
    dsimp only
    split <;> split <;> simp_all
  · intro hf hl
    unfold completeLast
    dsimp only
    split <;> split <;> simp_all

/-- C5 witness: the Rice example — `{Rice, qty: None, price: None}`
completed by `{itemName: None, qty: 5}` becomes `{Rice, qty: 5,
price: None}`. -/
theorem completion_fragment_targeting_witness :
    (merge_nlu_to_session sRice (fragNlu fragQty5)).items
      = [{ itemName := some (some "Rice".toList), qty := some (some 5),
           price := some none, salePrice := none }]
    ∧ (completeLast itemRiceNull fragQty5).qty = some (some 5) :=
  ⟨(completion_fragment_targeting sRice fragQty5 [] itemRiceNull rfl
      (by decide)).1,
   (completion_fragment_targeting sRice fragQty5 [] itemRiceNull rfl
      (by decide)).2.2.2.2.1 (by decide) (by decide)⟩

/-- C6: `get_session` returns the stored session when it is at most 60
seconds idle, and otherwise evicts it and returns (and stores) a freshly
initialized session with `active = false`, null intent and customer,
empty items and null payment fields; the operation is total. -/
theorem get_session_timeout_eviction (store : Store) (now : Int)
    (u : UserId) (s : Session)
    (hlook : storeLookup store u = some s) :
    (now - s.last_active ≤ 60 → get_session store now u = (s, store))
    ∧ (now - s.last_active > 60 →
        get_session store now u
          = (freshSession now, storePut store u (freshSession now))
        ∧ (freshSession now).active = false
        ∧ (freshSession now).intent = none
        ∧ (freshSession now).customerName = none
        ∧ (freshSession now).items = []
        ∧ (freshSession now).payment = { amount := none, mode := none }) := by
  constructor
  · intro h
    exact get_session_live store now u s hlook h
  · intro h
    exact ⟨get_session_expired store now u s hlook h, rfl, rfl, rfl, rfl, rfl⟩

/-- C6 witness: a session last active at time 0 is evicted by a `get` at
61 and kept by a `get` at 60. -/
theorem get_session_timeout_eviction_witness :
    get_session [(0, sSale)] 61 0 = (freshSession 61, [(0, freshSession 61)])
    ∧ get_session [(0, sSale)] 60 0 = (sSale, [(0, sSale)]) :=
  ⟨((get_session_timeout_eviction [(0, sSale)] 61 0 sSale rfl).2
      (by decide)).1,
   (get_session_timeout_eviction [(0, sSale)] 60 0 sSale rfl).1 (by decide)⟩

/-- C7: whatever the session state, a text containing a cancel keyword
(case-insensitive `cancel` or `stop`, or the Devanagari `बंद`) makes
`determine_next_step` return the localized cancel message with action
`cancel` and clear the session without merging the extraction, and any
later `get` for that user returns a brand-new session. -/
theorem global_cancel_precedence (store : Store) (now : Int) (u : UserId)
    (text : Str) (nlu : Nlu)
    (h : hasCancelKw text = true) :
    determine_next_step store now u text nlu =
      .ok ({ text := cancelText, action := actCancel, payload := none },
           clear_session store u)
    ∧ ∀ now2 : Int,
        (get_session (clear_session store u) now2 u).1 = freshSession now2 := by
  constructor
  · unfold determine_next_step
    rw [h]
    rfl
  · intro now2
    unfold get_session
    rw [storeLookup_clear]

/-- C7 witness: a mid-bill session cancelled by a Devanagari stop word. -/
theorem global_cancel_precedence_witness :
    determine_next_step [(1, sRice0)] 7 1 "कृपया बंद करा".toList nluRamesh =
      .ok ({ text := cancelText, action := actCancel, payload := none }, [])
    ∧ (get_session ([] : Store) 99 1).1 = freshSession 99 :=
  ⟨(global_cancel_precedence [(1, sRice0)] 7 1 "कृपया बंद करा".toList nluRamesh
      (by decide)).1,
   (global_cancel_precedence [(1, sRice0)] 7 1 "कृपया बंद करा".toList nluRamesh
      (by decide)).2 99⟩

/-- C8: merging an extraction whose intent, customerName and payment are
null and whose items list is empty changes no session field (the claim
permits `lastActiveAt` to change; the merge itself leaves even that
untouched — the planner refreshes it separately). -/
theorem merge_null_identity (s : Session) :
    (merge_nlu_to_session s nullNlu).active = s.active
    ∧ (merge_nlu_to_session s nullNlu).intent = s.intent
    ∧ (merge_nlu_to_session s nullNlu).customerName = s.customerName
    ∧ (merge_nlu_to_session s nullNlu).items = s.items
    ∧ (merge_nlu_to_session s nullNlu).payment = s.payment
    ∧ (merge_nlu_to_session s nullNlu).last_question = s.last_question
    ∧ (merge_nlu_to_session s nullNlu).turn_count = s.turn_count :=
  ⟨rfl, rfl, rfl, rfl, rfl, rfl, rfl⟩

/-- C9 counterexample: the planner can raise.  A stored session with
intent `PAYMENT`, a customer name and one item dict lacking the `qty`
key reaches the confirmation summary, whose bracket access
`i['qty']` raises `KeyError`. -/
theorem planner_keyerror_cex :
    determine_next_step [(1, sBadItem)] 0 1 "hi".toList nullNlu =
      .error (.keyError "qty".toList) := by decide

/-- C9 (amended): `determine_next_step` always returns a result — never
raises — provided every item dict of the stored session and of the
extraction carries the `itemName` and `qty` keys (possibly with null
values), as the extractor's mandatory output format guarantees; without
that guarantee the confirmation summary can raise `KeyError`. -/
theorem planner_total_with_item_keys (store : Store) (now : Int)
    (u : UserId) (text : Str) (nlu : Nlu)
    (hs : ∀ s, storeLookup store u = some s → ∀ i ∈ s.items, itemHasKeys i = true)
    (hn : ∀ i ∈ nlu.items, itemHasKeys i = true) :
    ∃ r, determine_next_step store now u text nlu = .ok r := by
  have hkeys0 : ∀ i ∈ (get_session store now u).1.items, itemHasKeys i = true := by
    cases hl : storeLookup store u with
    | none =>
        rw [get_session_absent store now u hl]
        intro i hi
        simp [freshSession] at hi
    | some s =>
        by_cases hexp : now - s.last_active > SESSION_TIMEOUT
        · rw [get_session_expired store now u s hl hexp]
          intro i hi
          simp [freshSession] at hi
        · rw [get_session_live store now u s hl (not_lt.mp hexp)]
          exact hs s hl
  have hmk : ∀ i ∈ (merge_nlu_to_session
      { (get_session store now u).1 with last_active := now } nlu).items,
      itemHasKeys i = true := by
    rw [merge_eq]
    exact mergeItems_keys nlu.items _ hkeys0 hn
  by_cases hck : hasCancelKw text = true
  · exact ⟨_, by unfold determine_next_step; rw [hck]; rfl⟩
  · rw [Bool.not_eq_true] at hck
    unfold determine_next_step
    rw [hck]
    simp only [Bool.false_eq_true, if_false]
    split
    · split
      · exact customerPhase_ok _ _ _ _ hmk
      · exact ⟨_, rfl⟩
    · exact customerPhase_ok _ _ _ _ hmk

/-- C9 witness: the totality guarantee at a fresh user. -/
theorem planner_total_with_item_keys_witness :
    ∃ r, determine_next_step [] 0 1 "hello".toList nullNlu = .ok r :=
  planner_total_with_item_keys [] 0 1 "hello".toList nullNlu
    (fun s hs => by simp [storeLookup] at hs)
    (fun i hi => by simp [nullNlu] at hi)

/-- C10: zero is treated as missing.  `truthyNat` is `false` on both
`None` and `0`, so the hypotheses below cover a zero field and a null
field uniformly: a bill-flow last item with a truthy name and a falsy
(null or zero) qty gets the quantity re-prompt, one with truthy qty but
falsy price and salePrice gets the price re-prompt, and a completion
fragment whose qty and price are falsy (e.g. zero) is never copied by
the merge. -/
theorem zero_treated_as_missing :
    (∀ (store : Store) (now : Int) (u : UserId) (text : Str) (s : Session)
        (init : List Item) (last : Item),
      storeLookup store u = some s → now - s.last_active ≤ SESSION_TIMEOUT →
      hasCancelKw text = false → s.intent = some createBillStr →
      truthyStr s.customerName = true → s.items = init ++ [last] →
      truthyStr last.itemName.join = true → truthyNat last.qty.join = false →
      determine_next_step store now u text nullNlu =
        .ok ({ text := qtyPrompt (renderOptStr last.itemName.join),
               action := actListen, payload := none },
             storePut store u { s with last_active := now }))
    ∧ (∀ (store : Store) (now : Int) (u : UserId) (text : Str) (s : Session)
        (init : List Item) (last : Item),
      storeLookup store u = some s → now - s.last_active ≤ SESSION_TIMEOUT →
      hasCancelKw text = false → s.intent = some createBillStr →
      truthyStr s.customerName = true → s.items = init ++ [last] →
      truthyStr last.itemName.join = true → truthyNat last.qty.join = true →
      truthyNat last.price.join = false → truthyNat last.salePrice.join = false →
      determine_next_step store now u text nullNlu =
        .ok ({ text := pricePrompt (renderOptStr last.itemName.join),
               action := actListen, payload := none },
             storePut store u { s with last_active := now }))
    ∧ (∀ (s : Session) (init : List Item) (last frag : Item),
      s.items = init ++ [last] → truthyStr frag.itemName.join = false →
      truthyNat frag.qty.join = false → truthyNat frag.price.join = false →
      (merge_nlu_to_session s (fragNlu frag)).items = s.items) := by
  refine ⟨?_, ?_, ?_⟩
  · intro store now u text s init last hlook hlive hc hintent hcust hitems hname hqty
    have hint2 : truthyStr (merge_nlu_to_session
        { s with last_active := now } nullNlu).intent = true := by
      rw [merge_nullNlu_id]
      show truthyStr s.intent = true
      rw [hintent]
      rfl
    rw [determine_eq_phases store now u text nullNlu s hlook hlive hc hint2,
      merge_nullNlu_id,
      customerPhase_known store u text { s with last_active := now } hcust,
      itemPhase_qty_prompt store u text { s with last_active := now }
        init last hintent hitems hname hqty]
  · intro store now u text s init last hlook hlive hc hintent hcust hitems
      hname hqty hprice hsale
    have hint2 : truthyStr (merge_nlu_to_session
        { s with last_active := now } nullNlu).intent = true := by
      rw [merge_nullNlu_id]
      show truthyStr s.intent = true
      rw [hintent]
      rfl
    rw [determine_eq_phases store now u text nullNlu s hlook hlive hc hint2,
      merge_nullNlu_id,
      customerPhase_known store u text { s with last_active := now } hcust,
      itemPhase_price_prompt store u text { s with last_active := now }
        init last hintent hitems hname hqty hprice hsale]
  · intro s init last frag hitems hname hq hp
    rw [merge_eq]
    show mergeItems s.items [frag] = s.items
    rw [hitems]
    unfold mergeItems
    dsimp only
    rw [hname, concat_not_isEmpty]
    show updLast frag (init ++ [last]) = init ++ [last]
    rw [updLast_concat, completeLast_falsy last frag hq hp]

/-- C10 witness: a last item `{Rice, qty: 0}` gets the quantity prompt,
and a zero-valued fragment leaves the session items unchanged. -/
theorem zero_treated_as_missing_witness :
    determine_next_step [(1, sRice0)] 0 1 "hello".toList nullNlu =
      .ok ({ text := qtyPrompt "Rice".toList, action := actListen,
             payload := none },
           [(1, { sRice0 with last_active := 0 })])
    ∧ (merge_nlu_to_session sRice0 (fragNlu fragZero)).items = sRice0.items :=
  ⟨zero_treated_as_missing.1 [(1, sRice0)] 0 1 "hello".toList sRice0 []
      itemRiceQty0 rfl (by decide) (by decide) rfl (by decide) rfl
      (by decide) (by decide),
   zero_treated_as_missing.2.2 sRice0 [] itemRiceQty0 fragZero rfl
      (by decide) (by decide) (by decide)⟩
